import Mathlib

/-!
Verification of the formula-reference-translation core of the
`excel-helper` repository (`src/excel_helper/excel_helper.py`).

The repository is a thin wrapper around an external spreadsheet engine.
The one piece of specified logic — relative formula-reference translation
performed by `copy_formula` — is delegated to the engine's `Translator`,
whose code is not part of the repository; following the specification we
model that collaborator from the spec's own algorithm (tokenize with the
reference grammar, base-26 decode, shift unlocked components, re-encode,
reassemble) and the spec's recommended out-of-range policy (a reference
whose shifted coordinate would fall below row 1 or column 1 is left
unshifted).  The wrapper methods that are present in the repository
(`copy_formula`, `get_formula`, `use_template`) are embedded directly
from their source.
-/

/-- Modelled from the spec: the external engine's column-letter alphabet,
`chr(64 + k)` for `1 ≤ k ≤ 26` (so `letterOf 1 = 'A'`, `letterOf 26 = 'Z'`). -/
def letterOf (k : Nat) : Char := Char.ofNat (64 + k)

/-- Numeric value of a column letter: `'A' ↦ 1`, …, `'Z' ↦ 26`. -/
def letterVal (c : Char) : Nat := c.toNat - 64

/-- Modelled from the spec: bijective base-26 encoding of a positive column
index into letters, as a character list.  `fuel` only bounds the recursion
depth; any `fuel ≥ n` computes the full encoding. -/
def colCharsAux : Nat → Nat → List Char
  | 0, _ => []
  | fuel + 1, n =>
    if n ≤ 26 then [letterOf n]
    else colCharsAux fuel ((n - 1) / 26) ++ [letterOf ((n - 1) % 26 + 1)]

/-- Character list of the column-letter encoding of `n`. -/
def colChars (n : Nat) : List Char := colCharsAux n n

/-- Modelled from the spec: the external engine's `get_column_letter`
(imported at `src/excel_helper/excel_helper.py:12`, code not in the
repository): bijective base-26 alphabetic encoding, `1 ↦ "A"`, `26 ↦ "Z"`,
`27 ↦ "AA"`. -/
def get_column_letter (n : Nat) : String := String.mk (colChars n)

/-- One step of base-26 decoding. -/
def colStep (acc : Nat) (c : Char) : Nat := acc * 26 + letterVal c

/-- Modelled from the spec: the inverse decoding of a column-letter string
back to a 1-based column index (base-26 left fold). -/
def column_index_from_string (s : String) : Nat := s.data.foldl colStep 0

theorem letterVal_letterOf {k : Nat} (hk : k ≤ 26) : letterVal (letterOf k) = k := by
  interval_cases k <;> rfl

theorem colCharsAux_eval {fuel n : Nat} (h1 : 1 ≤ n) (h2 : n ≤ fuel) :
    (colCharsAux fuel n).foldl colStep 0 = n := by
  induction fuel generalizing n with
  | zero => omega
  | succ fuel ih =>
    rw [colCharsAux]
    by_cases h26 : n ≤ 26
    · rw [if_pos h26]
      simp only [List.foldl_cons, List.foldl_nil, colStep]
      rw [letterVal_letterOf h26]
      omega
    · rw [if_neg h26]
      rw [List.foldl_append]
      have hm1 : 1 ≤ (n - 1) / 26 := by
        rw [Nat.one_le_div_iff (by omega)]
        omega
      have hm2 : (n - 1) / 26 ≤ fuel := by
        have := Nat.div_le_self (n - 1) 26
        omega
      rw [ih hm1 hm2]
      simp only [List.foldl_cons, List.foldl_nil, colStep]
      rw [letterVal_letterOf (by omega)]
      have hdm := Nat.div_add_mod (n - 1) 26
      omega

theorem column_letter_decode_encode {n : Nat} (h1 : 1 ≤ n) :
    column_index_from_string (get_column_letter n) = n := by
  unfold column_index_from_string get_column_letter
  exact colCharsAux_eval h1 (Nat.le_refl n)

/-- C8: for every integer `n` with `1 ≤ n ≤ 16384`, decoding the
column-letter encoding of `n` returns `n`, where the encoding is the
bijective base-26 alphabetic numbering with `A = 1`, `Z = 26`, `AA = 27`. -/
theorem C8_column_letter_roundtrip (n : Nat) (h1 : 1 ≤ n) (h2 : n ≤ 16384) :
    column_index_from_string (get_column_letter n) = n :=
  column_letter_decode_encode h1

theorem C8_column_letter_roundtrip_witness :
    1 ≤ 16384 ∧ 16384 ≤ 16384 ∧
      column_index_from_string (get_column_letter 16384) = 16384 :=
  ⟨by decide, by decide, C8_column_letter_roundtrip 16384 (by decide) (by decide)⟩

/-- Uppercase column letter per the spec's reference grammar. -/
def isUpperAZ (c : Char) : Bool := decide ('A' ≤ c) && decide (c ≤ 'Z')

/-- Decimal digit per the spec's reference grammar. -/
def isDigit09 (c : Char) : Bool := decide ('0' ≤ c) && decide (c ≤ '9')

/-- Numeric value of a decimal digit character. -/
def digitVal (c : Char) : Nat := c.toNat - 48

/-- Decimal value of a digit-character list (left fold). -/
def digitsVal (ds : List Char) : Nat := ds.foldl (fun acc c => acc * 10 + digitVal c) 0

/-- A parsed cell reference: a column component and a row component, each
independently flagged absolute (locked with `$`) or relative. -/
structure CellRef where
  colAbs : Bool
  col : Nat
  rowAbs : Bool
  row : Nat
deriving DecidableEq

/-- A formula is an ordered sequence of literal fragments and cell-reference
tokens, reconstructible by concatenation. -/
inductive FToken where
  | lit (s : String)
  | ref (r : CellRef)
deriving DecidableEq

/-- Modelled from the spec: match the reference grammar
`[$]Letter+[$]Digit+` at the head of the character list; on success return
the decoded reference and the unconsumed remainder. -/
def parseRef (cs : List Char) : Option (CellRef × List Char) :=
  let colAbs : Bool := cs.head? == some '$'
  let cs1 := if colAbs then cs.tail else cs
  let letters := cs1.takeWhile isUpperAZ
  if letters.isEmpty then none
  else
    let cs2 := cs1.dropWhile isUpperAZ
    let rowAbs : Bool := cs2.head? == some '$'
    let cs3 := if rowAbs then cs2.tail else cs2
    let digits := cs3.takeWhile isDigit09
    if digits.isEmpty then none
    else
      some (⟨colAbs, letters.foldl colStep 0, rowAbs, digitsVal digits⟩,
        cs3.dropWhile isDigit09)

/-- Modelled from the spec: tokenize a formula's characters into literal
spans and reference spans, skipping over double-quoted string constants so
their contents are never mistaken for references.  `fuel` only bounds the
recursion depth; each step consumes at least one character, so any
`fuel` ≥ the input length computes the full tokenization. -/
def tokenizeAux : Nat → List Char → List FToken
  | 0, _ => []
  | _ + 1, [] => []
  | fuel + 1, c :: rest =>
    if c = '"' then
      match rest.dropWhile (fun d => !(d == '"')) with
      | '"' :: r2 =>
        FToken.lit (String.mk ('"' :: (rest.takeWhile (fun d => !(d == '"')) ++ ['"'])))
          :: tokenizeAux fuel r2
      | _ => [FToken.lit (String.mk ('"' :: rest))]
    else
      match parseRef (c :: rest) with
      | some (r, rest2) => FToken.ref r :: tokenizeAux fuel rest2
      | none => FToken.lit (String.singleton c) :: tokenizeAux fuel rest

/-- Tokenize a formula string. -/
def tokenize (s : String) : List FToken := tokenizeAux (s.data.length + 1) s.data

/-- Render one cell reference back to text: optional `$`, column letters,
optional `$`, row number. -/
def renderRef (r : CellRef) : String :=
  (if r.colAbs then "$" else "") ++ get_column_letter r.col
    ++ (if r.rowAbs then "$" else "") ++ toString r.row

/-- Render one token back to text. -/
def renderTok : FToken → String
  | .lit s => s
  | .ref r => renderRef r

/-- Reassemble a token sequence into a formula string by concatenation. -/
def renderTokens (ts : List FToken) : String := String.join (ts.map renderTok)

/-- Modelled from the spec: shift a reference by the row/column delta.
Locked components are never shifted; if a shifted component would fall
below row 1 or column 1, the reference is left unshifted (the spec's
recommended out-of-range policy). -/
def shiftRef (rdelta cdelta : Int) (r : CellRef) : CellRef :=
  let nrow : Int := if r.rowAbs then (r.row : Int) else (r.row : Int) + rdelta
  let ncol : Int := if r.colAbs then (r.col : Int) else (r.col : Int) + cdelta
  if nrow < 1 ∨ ncol < 1 then r
  else ⟨r.colAbs, ncol.toNat, r.rowAbs, nrow.toNat⟩

/-- Translate one token: literals pass through unchanged, references are
shifted. -/
def translateTok (rdelta cdelta : Int) : FToken → FToken
  | .lit s => .lit s
  | .ref r => .ref (shiftRef rdelta cdelta r)

/-- Modelled from the spec: the external engine's `Translator` (imported at
`src/excel_helper/excel_helper.py:11`, code not in the repository):
tokenize the formula, shift every relative reference component by the
origin-to-target delta, and reassemble. -/
def translate_formula (formula : String) (orow ocol trow tcol : Nat) : String :=
  renderTokens ((tokenize formula).map
    (translateTok ((trow : Int) - (orow : Int)) ((tcol : Int) - (ocol : Int))))

/-- Modelled from the spec: a cell's stored value in the external engine's
worksheet model (string, number, or empty). -/
inductive CellValue where
  | vstr (s : String)
  | vnum (n : Int)
  | vnone
deriving DecidableEq

/-- Modelled from the spec: the engine's inferred data type of a stored
value — `"f"` for a string bearing the leading formula marker `=`, `"s"`
for other strings, `"n"` otherwise. -/
def data_type : CellValue → String
  | .vstr s => if s.data.head? == some '=' then "f" else "s"
  | .vnum _ => "n"
  | .vnone => "n"

/-- The string stored in a cell (empty for non-string values). -/
def cellStr : CellValue → String
  | .vstr s => s
  | .vnum _ => ""
  | .vnone => ""

/-- A worksheet: a total map from (row, column) to stored values. -/
def Sheet : Type := Nat × Nat → CellValue

/-- Result of `get_formula`: Python's `a and b` yields `False` when the
data-type test fails, else the cell's stored value. -/
inductive PyResult where
  | pyFalse
  | pyVal (v : CellValue)
deriving DecidableEq

/-- `get_formula` (src/excel_helper/excel_helper.py lines 118-123): returns
`data_type == "f" and value`. -/
def get_formula (sheet : Sheet) (row col : Nat) : PyResult :=
  if data_type (sheet (row, col)) = "f" then PyResult.pyVal (sheet (row, col))
  else PyResult.pyFalse

/-- `copy_formula` (src/excel_helper/excel_helper.py lines 125-134): when
the source cell holds a formula, write the translated formula into the
target cell; otherwise do nothing. -/
def copy_formula (sheet : Sheet) (from_row from_col to_row to_col : Nat) : Sheet :=
  if data_type (sheet (from_row, from_col)) = "f" then
    fun p =>
      if p = (to_row, to_col) then
        CellValue.vstr (translate_formula (cellStr (sheet (from_row, from_col)))
          from_row from_col to_row to_col)
      else sheet p
  else sheet

/-- Modelled from the spec: the external engine's possible outcomes when
`use_template` asks it to load the template and save the output. -/
inductive EngineOutcome where
  | ok
  | fileNotFound
  | permissionDenied
  | invalidFile
deriving DecidableEq

/-- The distinct, named failure kinds `use_template` surfaces to its
caller (file-not-found, permission-denied, and invalid-format as a value
error), each carrying a message naming the offending file. -/
inductive TemplateError where
  | fileNotFoundError (msg : String)
  | permissionError (msg : String)
  | valueError (msg : String)
deriving DecidableEq

/-- `use_template` (src/excel_helper/excel_helper.py lines 403-443): the
engine's outcome is a parameter; each engine failure is re-raised as a
distinct kind whose message names the offending file. -/
def use_template (template_file output_file : String) (outcome : EngineOutcome) :
    Except TemplateError Unit :=
  match outcome with
  | EngineOutcome.ok => Except.ok ()
  | EngineOutcome.fileNotFound =>
    Except.error (TemplateError.fileNotFoundError
      ("Template file not found: " ++ template_file))
  | EngineOutcome.permissionDenied =>
    Except.error (TemplateError.permissionError
      ("Permission denied when trying to save to: " ++ output_file))
  | EngineOutcome.invalidFile =>
    Except.error (TemplateError.valueError
      ("Invalid Excel file: " ++ template_file))

/-- Worksheet holding `=SUM(A1:A5)` at row 1, column 1. -/
def sheetC1 : Sheet :=
  fun p => if p = (1, 1) then CellValue.vstr "=SUM(A1:A5)" else CellValue.vnone

/-- C1: for the formula `=SUM(A1:A5)` stored at origin cell (1, 1),
`copy_formula` to target cell (2, 2) writes the translated formula
`=SUM(B2:B6)` into the target cell: every relative reference is shifted by
the delta (+1, +1). -/
theorem C1_copy_formula_sum :
    copy_formula sheetC1 1 1 2 2 (2, 2) = CellValue.vstr "=SUM(B2:B6)" := by
  decide

/-- C6: letter/digit text inside quoted string constants is not treated as
a cell reference and is never shifted: the quoted spans tokenize as
literals, and translating `=IF(A1, "True", "False")` from (1, 1) to (2, 1)
yields `=IF(A2, "True", "False")` with both string literals unchanged. -/
theorem C6_string_constants_not_references :
    FToken.lit "\"True\"" ∈ tokenize "=IF(A1, \"True\", \"False\")" ∧
    FToken.lit "\"False\"" ∈ tokenize "=IF(A1, \"True\", \"False\")" ∧
    translate_formula "=IF(A1, \"True\", \"False\")" 1 1 2 1
      = "=IF(A2, \"True\", \"False\")" := by
  decide

/-- C7: when the source cell's stored value lacks the formula marker,
`copy_formula` performs no translation and makes no write: the worksheet
is returned unchanged and no error is raised. -/
theorem C7_copy_formula_noop (sheet : Sheet) (from_row from_col to_row to_col : Nat)
    (h : data_type (sheet (from_row, from_col)) ≠ "f") :
    copy_formula sheet from_row from_col to_row to_col = sheet := by
  unfold copy_formula
  rw [if_neg h]

theorem C7_copy_formula_noop_witness :
    data_type ((fun _ => CellValue.vstr "Hello") ((1 : Nat), (1 : Nat))) ≠ "f" ∧
    copy_formula (fun _ => CellValue.vstr "Hello") 1 1 2 2
      = (fun _ => CellValue.vstr "Hello") :=
  ⟨by decide, C7_copy_formula_noop (fun _ => CellValue.vstr "Hello") 1 1 2 2 (by decide)⟩

/-- C9: `use_template` surfaces external-engine failures as distinct,
named error kinds rather than a generic failure: a missing template file
raises the file-not-found kind naming the template file, a write-permission
failure raises the permission-denied kind naming the output file, and an
invalid spreadsheet file raises the invalid-format (value error) kind
naming the template file. -/
theorem C9_use_template_error_kinds (template_file output_file : String) :
    use_template template_file output_file EngineOutcome.fileNotFound
      = Except.error (TemplateError.fileNotFoundError
          ("Template file not found: " ++ template_file)) ∧
    use_template template_file output_file EngineOutcome.permissionDenied
      = Except.error (TemplateError.permissionError
          ("Permission denied when trying to save to: " ++ output_file)) ∧
    use_template template_file output_file EngineOutcome.invalidFile
      = Except.error (TemplateError.valueError
          ("Invalid Excel file: " ++ template_file)) :=
  ⟨rfl, rfl, rfl⟩

/-- C10: for every cell that does not hold a formula, `get_formula`
returns the boolean `False` (Python's short-circuiting `and`), not the
cell's stored value, an empty string, or `None`; only for a formula cell
does it return the stored formula string. -/
theorem C10_get_formula_false (sheet : Sheet) (row col : Nat) :
    (data_type (sheet (row, col)) ≠ "f" →
      get_formula sheet row col = PyResult.pyFalse) ∧
    (data_type (sheet (row, col)) = "f" →
      get_formula sheet row col = PyResult.pyVal (sheet (row, col))) := by
  constructor
  · intro h
    unfold get_formula
    rw [if_neg h]
  · intro h
    unfold get_formula
    rw [if_pos h]

theorem C10_get_formula_false_witness :
    get_formula (fun _ => CellValue.vstr "Hello") 1 1 = PyResult.pyFalse :=
  (C10_get_formula_false (fun _ => CellValue.vstr "Hello") 1 1).1 (by decide)

/-- A token is relative when it is a literal or a reference with neither
component locked. -/
def tokenRelative : FToken → Bool
  | FToken.lit _ => true
  | FToken.ref r => !r.colAbs && !r.rowAbs

/-- A token is absolute when it is a literal or a reference with both
components locked. -/
def tokenAbsolute : FToken → Bool
  | FToken.lit _ => true
  | FToken.ref r => r.colAbs && r.rowAbs

theorem shiftRef_absolute {r : CellRef} (hca : r.colAbs = true)
    (hra : r.rowAbs = true) (rdelta cdelta : Int) : shiftRef rdelta cdelta r = r := by
  obtain ⟨ca, c, ra, w⟩ := r
  simp only at hca hra
  subst hca hra
  simp only [shiftRef, if_true]
  split
  · rfl
  · simp only [CellRef.mk.injEq, true_and]
    omega

theorem shiftRef_colAbs (rdelta cdelta : Int) (r : CellRef) :
    (shiftRef rdelta cdelta r).colAbs = r.colAbs := by
  simp only [shiftRef]
  repeat' split
  all_goals rfl

theorem shiftRef_rowAbs (rdelta cdelta : Int) (r : CellRef) :
    (shiftRef rdelta cdelta r).rowAbs = r.rowAbs := by
  simp only [shiftRef]
  repeat' split
  all_goals rfl

theorem shiftRef_col_locked {r : CellRef} (hca : r.colAbs = true)
    (rdelta cdelta : Int) : (shiftRef rdelta cdelta r).col = r.col := by
  simp only [shiftRef]
  rw [if_pos hca]
  repeat' split
  all_goals first
  | rfl
  | omega

theorem shiftRef_row_locked {r : CellRef} (hra : r.rowAbs = true)
    (rdelta cdelta : Int) : (shiftRef rdelta cdelta r).row = r.row := by
  simp only [shiftRef]
  rw [if_pos hra]
  repeat' split
  all_goals first
  | rfl
  | omega

/-- C3: for every formula containing only absolute (locked) references and
every translation delta, translation is the identity on the token
sequence; in particular `=SUM($A$1:$A$5)` translated from origin (1, 1) to
target (2, 2) is the unchanged string `=SUM($A$1:$A$5)`. -/
theorem C3_absolute_identity :
    (∀ (F : List FToken) (rdelta cdelta : Int),
      (∀ t ∈ F, tokenAbsolute t = true) →
        F.map (translateTok rdelta cdelta) = F) ∧
    translate_formula "=SUM($A$1:$A$5)" 1 1 2 2 = "=SUM($A$1:$A$5)" := by
  constructor
  · intro F rdelta cdelta habs
    induction F with
    | nil => rfl
    | cons t F ih =>
      have ht := habs t (List.mem_cons_self t F)
      have hF : F.map (translateTok rdelta cdelta) = F :=
        ih fun u hu => habs u (List.mem_cons_of_mem t hu)
      cases t with
      | lit s => simpa [translateTok] using hF
      | ref r =>
        simp only [tokenAbsolute, Bool.and_eq_true] at ht
        simp [translateTok, shiftRef_absolute ht.1 ht.2, hF]
  · decide

theorem C3_absolute_identity_witness :
    [FToken.ref ⟨true, 1, true, 1⟩].map (translateTok 3 5)
      = [FToken.ref ⟨true, 1, true, 1⟩] :=
  C3_absolute_identity.1 [FToken.ref ⟨true, 1, true, 1⟩] 3 5 (by decide)

/-- C4 counterexample: for the mixed reference `$A1` (locked column,
relative row 1) and the delta (-1, 0) — origin (2, 1) to target (1, 1) —
the shifted row would fall below row 1, so the reference is left unshifted:
its relative row is not shifted by the delta, contradicting the claim that
the relative component is always shifted by the coordinate delta. -/
theorem C4_mixed_cex :
    (CellRef.mk true 1 false 1).colAbs = true ∧
    (CellRef.mk true 1 false 1).rowAbs = false ∧
    shiftRef (-1) 0 (CellRef.mk true 1 false 1) = CellRef.mk true 1 false 1 ∧
    ((shiftRef (-1) 0 (CellRef.mk true 1 false 1)).row : Int) ≠ (1 : Int) + (-1) ∧
    translate_formula "=$A1" 2 1 1 1 = "=$A1" := by
  decide

/-- C4 (amended): for every mixed reference, whenever the shift keeps the
reference within bounds (the spec's out-of-range policy otherwise leaves
it unshifted), only the relative component is shifted by the coordinate
delta and the locked component keeps its original value. -/
theorem C4_mixed_shifts_relative_component :
    (∀ (r : CellRef) (rdelta cdelta : Int), r.colAbs = true → r.rowAbs = false →
      1 ≤ r.col → 1 ≤ (r.row : Int) + rdelta →
        shiftRef rdelta cdelta r
          = CellRef.mk true r.col false ((r.row : Int) + rdelta).toNat) ∧
    (∀ (r : CellRef) (rdelta cdelta : Int), r.colAbs = false → r.rowAbs = true →
      1 ≤ r.row → 1 ≤ (r.col : Int) + cdelta →
        shiftRef rdelta cdelta r
          = CellRef.mk false ((r.col : Int) + cdelta).toNat true r.row) := by
  constructor
  · intro r rdelta cdelta hca hra hc hr
    obtain ⟨ca, c, ra, w⟩ := r
    simp only at hca hra hc hr
    subst hca hra
    simp only [shiftRef, if_true, if_false]
    rw [if_neg (by push_cast; omega)]
    simp only [CellRef.mk.injEq, true_and]
    constructor
    · omega
    · rfl
  · intro r rdelta cdelta hca hra hr hc
    obtain ⟨ca, c, ra, w⟩ := r
    simp only at hca hra hc hr
    subst hca hra
    simp only [shiftRef, if_true, if_false]
    rw [if_neg (by push_cast; omega)]
    simp only [CellRef.mk.injEq, true_and]
    constructor
    · rfl
    · omega

theorem C4_mixed_shifts_relative_component_witness :
    shiftRef 1 0 (CellRef.mk true 1 false 1) = CellRef.mk true 1 false 2 := by
  rw [C4_mixed_shifts_relative_component.1 (CellRef.mk true 1 false 1) 1 0
    rfl rfl (by decide) (by decide)]
  decide

/-- Per-position structure preservation between an input token and its
translated counterpart: literals are identical, references keep their lock
flags, and locked components keep their values. -/
def preservesTok : FToken → FToken → Bool
  | FToken.lit s, FToken.lit t => s == t
  | FToken.ref r, FToken.ref q =>
    (q.colAbs == r.colAbs) && (q.rowAbs == r.rowAbs)
      && (!r.colAbs || (q.col == r.col)) && (!r.rowAbs || (q.row == r.row))
  | _, _ => false

theorem preservesTok_translateTok (rdelta cdelta : Int) (t : FToken) :
    preservesTok t (translateTok rdelta cdelta t) = true := by
  cases t with
  | lit s => simp [preservesTok, translateTok]
  | ref r =>
    simp only [preservesTok, translateTok, Bool.and_eq_true, Bool.or_eq_true,
      Bool.not_eq_eq_eq_not, Bool.not_true, beq_iff_eq]
    refine ⟨⟨⟨shiftRef_colAbs rdelta cdelta r, shiftRef_rowAbs rdelta cdelta r⟩, ?_⟩, ?_⟩
    · cases hca : r.colAbs with
      | false => left; rfl
      | true => right; exact shiftRef_col_locked hca rdelta cdelta
    · cases hra : r.rowAbs with
      | false => left; rfl
      | true => right; exact shiftRef_row_locked hra rdelta cdelta

/-- C2 counterexample: the formula `=A1` contains only relative
references, yet translating it from origin (2, 2) to target (1, 1) — where
the shifted reference would fall below row 1 or column 1 and is therefore
left unshifted — and then translating the result from (1, 1) back to
(2, 2) yields `=B2`, not the original string `=A1`. -/
theorem C2_roundtrip_cex :
    (tokenize "=A1").all tokenRelative = true ∧
    translate_formula (translate_formula "=A1" 2 2 1 1) 1 1 2 2 ≠ "=A1" := by
  decide

theorem shiftRef_relative {r : CellRef} {rdelta cdelta : Int}
    (hca : r.colAbs = false) (hra : r.rowAbs = false)
    (hrow2 : 1 ≤ (r.row : Int) + rdelta) (hcol2 : 1 ≤ (r.col : Int) + cdelta) :
    shiftRef rdelta cdelta r
      = CellRef.mk false ((r.col : Int) + cdelta).toNat false
          ((r.row : Int) + rdelta).toNat := by
  obtain ⟨ca, c, ra, w⟩ := r
  simp only at hca hra hrow2 hcol2
  subst hca hra
  simp only [shiftRef]
  rw [if_neg (by push_cast; omega)]
  simp

theorem shiftRef_roundtrip {r : CellRef} {rdelta cdelta : Int}
    (hca : r.colAbs = false) (hra : r.rowAbs = false)
    (hrow : 1 ≤ r.row) (hcol : 1 ≤ r.col)
    (hrow2 : 1 ≤ (r.row : Int) + rdelta) (hcol2 : 1 ≤ (r.col : Int) + cdelta) :
    shiftRef (-rdelta) (-cdelta) (shiftRef rdelta cdelta r) = r := by
  rw [shiftRef_relative hca hra hrow2 hcol2]
  rw [shiftRef_relative rfl rfl (by simp only; omega) (by simp only; omega)]
  obtain ⟨ca, c, ra, w⟩ := r
  simp only at hca hra hrow hcol hrow2 hcol2
  subst hca hra
  simp only [CellRef.mk.injEq, true_and]
  constructor
  · omega
  · omega

theorem translateTok_roundtrip (rdelta cdelta : Int) (t : FToken)
    (hrel : tokenRelative t = true)
    (hok : ∀ r, t = FToken.ref r → 1 ≤ r.row ∧ 1 ≤ r.col ∧
      1 ≤ (r.row : Int) + rdelta ∧ 1 ≤ (r.col : Int) + cdelta) :
    translateTok (-rdelta) (-cdelta) (translateTok rdelta cdelta t) = t := by
  cases t with
  | lit s => rfl
  | ref r =>
    obtain ⟨h1, h2, h3, h4⟩ := hok r rfl
    have hflags : r.colAbs = false ∧ r.rowAbs = false := by
      cases hc : r.colAbs <;> cases hr : r.rowAbs <;>
        simp [tokenRelative, hc, hr] at hrel ⊢
    simp only [translateTok, FToken.ref.injEq]
    exact shiftRef_roundtrip hflags.1 hflags.2 h1 h2 h3 h4

/-- C2 (amended): for every formula containing only relative references
whose coordinates are valid (row and column at least 1) and stay within
bounds after the origin-to-target shift (otherwise the spec's out-of-range
policy leaves the reference unshifted), translating the formula from
origin O to target T and then translating the result from T back to O
yields the original token sequence and hence the original formula
string. -/
theorem C2_relative_roundtrip (F : List FToken) (orow ocol trow tcol : Nat)
    (hrel : ∀ t ∈ F, tokenRelative t = true)
    (hok : ∀ r, FToken.ref r ∈ F → 1 ≤ r.row ∧ 1 ≤ r.col ∧
      1 ≤ (r.row : Int) + ((trow : Int) - (orow : Int)) ∧
      1 ≤ (r.col : Int) + ((tcol : Int) - (ocol : Int))) :
    (F.map (translateTok ((trow : Int) - (orow : Int))
        ((tcol : Int) - (ocol : Int)))).map
      (translateTok ((orow : Int) - (trow : Int)) ((ocol : Int) - (tcol : Int))) = F ∧
    renderTokens ((F.map (translateTok ((trow : Int) - (orow : Int))
        ((tcol : Int) - (ocol : Int)))).map
      (translateTok ((orow : Int) - (trow : Int)) ((ocol : Int) - (tcol : Int))))
      = renderTokens F := by
  have hb1 : (orow : Int) - (trow : Int) = -((trow : Int) - (orow : Int)) := by ring
  have hb2 : (ocol : Int) - (tcol : Int) = -((tcol : Int) - (ocol : Int)) := by ring
  have hmain : (F.map (translateTok ((trow : Int) - (orow : Int))
      ((tcol : Int) - (ocol : Int)))).map
      (translateTok ((orow : Int) - (trow : Int)) ((ocol : Int) - (tcol : Int))) = F := by
    rw [hb1, hb2]
    induction F with
    | nil => rfl
    | cons t F ih =>
      simp only [List.map_cons, List.cons.injEq]
      constructor
      · exact translateTok_roundtrip _ _ t (hrel t (List.mem_cons_self t F))
          fun r hr => hok r (by rw [hr] at *; exact List.mem_cons_self _ F)
      · exact ih (fun u hu => hrel u (List.mem_cons_of_mem t hu))
          (fun r hr => hok r (List.mem_cons_of_mem t hr))
  exact ⟨hmain, by rw [hmain]⟩

theorem C2_relative_roundtrip_witness :
    ([FToken.lit "=", FToken.ref (CellRef.mk false 1 false 1)].map
        (translateTok ((2 : Int) - (1 : Int)) ((2 : Int) - (1 : Int)))).map
      (translateTok ((1 : Int) - (2 : Int)) ((1 : Int) - (2 : Int)))
      = [FToken.lit "=", FToken.ref (CellRef.mk false 1 false 1)] :=
  (C2_relative_roundtrip [FToken.lit "=", FToken.ref (CellRef.mk false 1 false 1)]
    1 1 2 2 (by decide)
    (by
      intro r hr
      simp only [List.mem_cons, List.not_mem_nil, or_false] at hr
      rcases hr with hr | hr
      · exact absurd hr (by simp)
      · cases FToken.ref.inj hr
        decide)).1

/-- C5: for every formula and every origin/target pair, the translated
formula is the concatenation of the translated token sequence, which has
exactly the same number of tokens as the input in the same relative
order: literal spans are preserved verbatim, reference tokens stay
reference tokens with their lock flags intact, and only the coordinate
values of relative components differ. -/
theorem C5_token_structure_preserved (s : String) (orow ocol trow tcol : Nat) :
    translate_formula s orow ocol trow tcol
      = renderTokens ((tokenize s).map
          (translateTok ((trow : Int) - (orow : Int)) ((tcol : Int) - (ocol : Int)))) ∧
    ((tokenize s).map
        (translateTok ((trow : Int) - (orow : Int)) ((tcol : Int) - (ocol : Int)))).length
      = (tokenize s).length ∧
    List.Forall₂ (fun a b => preservesTok a b = true) (tokenize s)
      ((tokenize s).map
        (translateTok ((trow : Int) - (orow : Int)) ((tcol : Int) - (ocol : Int)))) := by
  refine ⟨rfl, List.length_map _ _, ?_⟩
  rw [List.forall₂_map_right_iff, List.forall₂_same]
  intro t ht
  exact preservesTok_translateTok _ _ t
